import Mathlib

/-!
Verification of the GitHub issue-harvesting pipeline in
`llm-app/templates/multimodal_rag/data/source/issueScraper.py`.

The Python module is shallowly embedded: JSON values become an inductive
`Json` type, every network interaction is made explicit (for `fetch_json`
the remote side is a script of HTTP outcomes; for the higher-level
functions the remote side is a map from URL to the JSON value that
`fetch_json` hands back for that URL), and source functions become
executable Lean functions with the same names.  Each function also
reports the list of URLs it requested, so that claims about which
requests are issued can be stated.
-/

/-- JSON values, as manipulated by the Python module (dicts keep their
insertion order, which is what `obj`'s field list records). -/
inductive Json where
  | null
  | bool (b : Bool)
  | num (n : Int)
  | str (s : String)
  | arr (elems : List Json)
  | obj (fields : List (String × Json))
deriving Repr

/-- First binding of a key in a field list (Python dicts have unique keys,
so this is plain dict lookup). -/
def lookupField : List (String × Json) → String → Option Json
  | [], _ => none
  | (k, v) :: rest, key => if k = key then some v else lookupField rest key

/-- `d.get(k)` without a default: `some v` when the object binds `k`.
Models Python dict lookup for JSON objects (the scraper only applies
`.get` / `in` to values that are dicts). -/
def Json.getKey? : Json → String → Option Json
  | .obj fields, k => lookupField fields k
  | _, _ => none

/-- `d.get(k, default)`: the bound value, or `default` when absent. -/
def Json.getD (j : Json) (k : String) (d : Json) : Json :=
  (j.getKey? k).getD d

/-- `k in d` for a JSON object. -/
def Json.hasKey (j : Json) (k : String) : Bool :=
  (j.getKey? k).isSome

/-- Python truthiness of a JSON value (`if x:`): `None`, `False`, `0`,
`""`, `[]` and `{}` are falsy, everything else truthy. -/
def Json.truthy : Json → Bool
  | .null => false
  | .bool b => b
  | .num n => decide (n ≠ 0)
  | .str s => decide (s ≠ "")
  | .arr xs => !xs.isEmpty
  | .obj fs => !fs.isEmpty

/-- Truthiness of an optional JSON value (`None` when the Python variable
holds `None`). -/
def pyTruthyOpt : Option Json → Bool
  | none => false
  | some j => j.truthy

/-- Python `str()` of a scalar JSON value, as used by f-string
interpolation; the scraper only ever interpolates strings (URLs, SHAs). -/
def Json.fstr : Json → String
  | .str s => s
  | .num n => toString n
  | .bool true => "True"
  | .bool false => "False"
  | .null => "None"
  | .arr _ => "<list>"
  | .obj _ => "<dict>"

/-- The keys of a JSON object, in insertion order. -/
def Json.keys : Json → List String
  | .obj fields => fields.map Prod.fst
  | _ => []

/-- `GITHUB = "https://api.github.com"` (module-level constant). -/
def GITHUB : String := "https://api.github.com"

/-! ## The HTTP fetcher: `fetch_json`

`fetch_json(session, url)` is modelled against a *script*: the sequence of
outcomes the remote host produces for the successive attempts at the one
URL the call works on.  An outcome is either a transport failure (the
`session.get` itself raises) or a response carrying an HTTP status, the
parsed `X-RateLimit-Reset` header when present, the value
`int(asyncio.get_event_loop().time())` would read while handling this
response, and the parsed body (`.error` when `resp.json()` raises).
The result records the value returned, the durations slept, and the URL
of every attempt issued; `none` means the script was exhausted (the
recursion outran the modelled environment). -/

inductive HttpOutcome where
  | raiseOnGet
  | resp (status : Nat) (reset : Option Int) (loopNow : Int) (body : Except Unit Json)

structure FetchResult where
  value : Json
  sleeps : List Int
  urls : List String
deriving Repr

/-- `fetch_json` from the source: on HTTP 403 with an `X-RateLimit-Reset`
header it computes `wait = int(reset) - int(asyncio.get_event_loop().time())`,
sleeps `max(wait, 2)`, and recursively retries the same URL, returning the
retry's result; any other status ≥ 400, a transport failure, or a body
that fails to parse is caught by the `except` clause and yields `{}`. -/
def fetch_json (url : String) : List HttpOutcome → Option FetchResult
  | [] => none
  | .raiseOnGet :: _ => some ⟨Json.obj [], [], [url]⟩
  | .resp status reset loopNow body :: rest =>
    if status = 403 then
      match reset with
      | some r =>
        match fetch_json url rest with
        | none => none
        | some res => some ⟨res.value, max (r - loopNow) 2 :: res.sleeps, url :: res.urls⟩
      | none => some ⟨Json.obj [], [], [url]⟩
    else if 400 ≤ status then
      some ⟨Json.obj [], [], [url]⟩
    else
      match body with
      | .error _ => some ⟨Json.obj [], [], [url]⟩
      | .ok j => some ⟨j, [], [url]⟩

/-- A rate-limited run used to exhibit the clock bug: the server answers
403 with `X-RateLimit-Reset = 1760227205` (a Unix timestamp five seconds
after the Unix time 1760227200 at which the response is handled) while the
event-loop monotonic clock reads 1000; the retry succeeds with a payload. -/
def rateLimitedScript : List HttpOutcome :=
  [HttpOutcome.resp 403 (some 1760227205) 1000 (Except.ok (Json.str "ignored")),
   HttpOutcome.resp 200 none 1005 (Except.ok (Json.str "payload"))]

/-- Claim C3: on a 403 carrying `X-RateLimit-Reset`, `fetch_json` does retry
the identical URL exactly once more and returns the retry's data, but the
sleep is computed from `asyncio.get_event_loop().time()` — a monotonic
clock — not from Unix time: with reset = 1760227205, Unix now = 1760227200
and loop clock = 1000 it sleeps 1760226205 seconds, not the
`max(reset - unix_now, 2) = 5` seconds the claim states. -/
theorem fetch_json_403_monotonic_clock_bug :
    fetch_json "https://u" rateLimitedScript =
      some ⟨Json.str "payload", [1760226205], ["https://u", "https://u"]⟩
    ∧ (1760226205 : Int) ≠ max (1760227205 - 1760227200) 2 := by
  constructor
  · rfl
  · decide

/-- Claim C6: every HTTP error status other than a rate-limited 403 (any
status ≥ 400, with a 403 only when it carries no reset header), and every
transport failure, is swallowed: `fetch_json` returns the empty JSON
object after a single attempt instead of propagating the exception. -/
theorem fetch_json_error_swallowed (url : String) (status : Nat)
    (reset : Option Int) (loopNow : Int) (body : Except Unit Json)
    (rest : List HttpOutcome)
    (h400 : 400 ≤ status) (hNotRL : status = 403 → reset = none) :
    fetch_json url (HttpOutcome.resp status reset loopNow body :: rest) =
      some ⟨Json.obj [], [], [url]⟩
    ∧ ∀ rest2, fetch_json url (HttpOutcome.raiseOnGet :: rest2) =
      some ⟨Json.obj [], [], [url]⟩ := by
  constructor
  · by_cases h403 : status = 403
    · rw [hNotRL h403]
      simp [fetch_json, h403]
    · simp [fetch_json, h403, h400]
  · intro rest2
    rfl

/-- Concrete instance of `fetch_json_error_swallowed`: an HTTP 500. -/
theorem fetch_json_error_swallowed_witness :
    fetch_json "https://u" [HttpOutcome.resp 500 none 0 (Except.ok Json.null)] =
      some ⟨Json.obj [], [], ["https://u"]⟩
    ∧ ∀ rest2, fetch_json "https://u" (HttpOutcome.raiseOnGet :: rest2) =
      some ⟨Json.obj [], [], ["https://u"]⟩ :=
  fetch_json_error_swallowed "https://u" 500 none 0 (Except.ok Json.null) []
    (by decide) (by decide)

/-! ## The network seen by the higher-level functions

`fetch_json` never raises, so from the point of view of its callers the
remote side is just a map from URL to the JSON value `fetch_json` returns
for that URL (with `{}` already standing in for any failed fetch). -/

structure FetchEnv where
  net : String → Json

/-- The page URL built by `fetch_closed_issues`:
`f"{scrapLink}?state=closed&per_page=100&page={page}"`. -/
def pageUrl (scrapLink : String) (page : Nat) : String :=
  scrapLink ++ "?state=closed&per_page=100&page=" ++ toString page

/-- The filter applied to each page: `"pull_request" not in i`. -/
def notPullRequest (i : Json) : Bool :=
  !(i.hasKey "pull_request")

/-- The `while len(all_issues) < 150` loop of `fetch_closed_issues`, with
an explicit fuel bound standing in for non-termination (the Python loop
has no such bound; `none` means the fuel ran out before the loop exited).
Returns the accumulated `all_issues` (pre-truncation) together with the
URLs requested, in request order. -/
def fetchClosedIssuesLoop (env : FetchEnv) (scrapLink : String) :
    Nat → Nat → List Json → Option (List Json × List String)
  | 0, _, _ => none
  | fuel + 1, page, acc =>
    if acc.length < 150 then
      let url := pageUrl scrapLink page
      match env.net url with
      | .arr issues =>
        if issues.length = 0 then some (acc, [url])
        else
          let filtered := issues.filter notPullRequest
          let acc2 := acc ++ filtered
          if issues.length < 100 then some (acc2, [url])
          else
            match fetchClosedIssuesLoop env scrapLink fuel (page + 1) acc2 with
            | none => none
            | some (res, reqs) => some (res, url :: reqs)
      | _ => some (acc, [url])
    else some (acc, [])

/-- `fetch_closed_issues(session, scrapLink)`: run the pagination loop
from page 1 with an empty accumulator and return `all_issues[:150]`. -/
def fetch_closed_issues (env : FetchEnv) (scrapLink : String) (fuel : Nat) :
    Option (List Json × List String) :=
  (fetchClosedIssuesLoop env scrapLink fuel 1 []).map
    (fun pr => (pr.1.take 150, pr.2))

/-- The raw (pre-filter) entry list of page `p`, `[]` when the response is
not a JSON list. -/
def rawPage (env : FetchEnv) (scrapLink : String) (p : Nat) : List Json :=
  match env.net (pageUrl scrapLink p) with
  | .arr issues => issues
  | _ => []

/-- Whether page `p`'s response is a JSON list. -/
def pageIsList (env : FetchEnv) (scrapLink : String) (p : Nat) : Bool :=
  match env.net (pageUrl scrapLink p) with
  | .arr _ => true
  | _ => false

/-- All non-pull-request entries of pages `1..k`, in page order. -/
def filteredUpTo (env : FetchEnv) (scrapLink : String) (k : Nat) : List Json :=
  (List.range' 1 k).flatMap (fun p => (rawPage env scrapLink p).filter notPullRequest)

/-- After processing page `j`, does the loop go on to request page `j+1`?
Exactly when page `j` was a list, non-empty, of at least 100 raw entries,
and the accumulated filtered count is still below 150. -/
def contAfter (env : FetchEnv) (scrapLink : String) (j : Nat) : Bool :=
  pageIsList env scrapLink j
  && decide (0 < (rawPage env scrapLink j).length)
  && decide (100 ≤ (rawPage env scrapLink j).length)
  && decide ((filteredUpTo env scrapLink j).length < 150)

theorem filteredUpTo_zero (env : FetchEnv) (sl : String) :
    filteredUpTo env sl 0 = [] := rfl

theorem filteredUpTo_succ (env : FetchEnv) (sl : String) (k : Nat) :
    filteredUpTo env sl (k + 1) =
      filteredUpTo env sl k ++ (rawPage env sl (k + 1)).filter notPullRequest := by
  unfold filteredUpTo
  rw [List.range'_1_concat, List.flatMap_append]
  simp [Nat.add_comm]

/-- Full characterisation of the pagination loop, generalised over the
number `q` of pages already processed: whenever the loop (entered at page
`q+1` with the entries accumulated from pages `1..q`, still below the
target) terminates within its fuel, there is a final page `k` such that
the loop requested exactly pages `q+1 .. k` in order, every page before
`k` satisfied the continuation condition, page `k` failed it, and the
accumulator holds exactly the filtered entries of pages `1..k`. -/
theorem fetchClosedIssuesLoop_spec (env : FetchEnv) (sl : String) :
    ∀ (fuel q : Nat) (res : List Json) (reqs : List String),
      (filteredUpTo env sl q).length < 150 →
      fetchClosedIssuesLoop env sl fuel (q + 1) (filteredUpTo env sl q) = some (res, reqs) →
      ∃ k, q + 1 ≤ k ∧ reqs = (List.range' (q + 1) (k - q)).map (pageUrl sl) ∧
        (∀ j, q + 1 ≤ j → j < k → contAfter env sl j = true) ∧
        contAfter env sl k = false ∧ res = filteredUpTo env sl k := by
  intro fuel
  induction fuel with
  | zero =>
    intro q res reqs _ h
    simp [fetchClosedIssuesLoop] at h
  | succ f ih =>
    intro q res reqs hlen h
    rw [fetchClosedIssuesLoop, if_pos hlen] at h
    dsimp only at h
    rcases hnet : env.net (pageUrl sl (q + 1)) with _ | b | n | s | issues | fs
    case arr =>
      rw [hnet] at h
      simp only at h
      by_cases hz : issues.length = 0
      · rw [if_pos hz] at h
        rcases List.length_eq_zero.mp hz
        refine ⟨q + 1, le_refl _, ?_, ?_, ?_, ?_⟩
        · simp at h
          simp [h.2, Nat.add_sub_cancel_left, List.range']
        · intro j h1 h2; omega
        · simp [contAfter, rawPage, hnet]
        · simp at h
          rw [filteredUpTo_succ]
          simp [rawPage, hnet, h.1]
      · rw [if_neg hz] at h
        by_cases hsmall : issues.length < 100
        · rw [if_pos hsmall] at h
          simp at h
          refine ⟨q + 1, le_refl _, ?_, ?_, ?_, ?_⟩
          · simp [h.2, Nat.add_sub_cancel_left, List.range']
          · intro j h1 h2; omega
          · simp [contAfter, rawPage, hnet]
            omega
          · rw [filteredUpTo_succ]
            simp [rawPage, hnet, h.1]
        · rw [if_neg hsmall] at h
          have hacc2 : filteredUpTo env sl q ++ issues.filter notPullRequest =
              filteredUpTo env sl (q + 1) := by
            rw [filteredUpTo_succ]
            simp [rawPage, hnet]
          rw [hacc2] at h
          by_cases hbelow : (filteredUpTo env sl (q + 1)).length < 150
          · rcases hrec : fetchClosedIssuesLoop env sl f (q + 1 + 1) (filteredUpTo env sl (q + 1)) with _ | ⟨res2, reqs2⟩
            · rw [hrec] at h; simp at h
            · rw [hrec] at h
              simp at h
              obtain ⟨k, hk1, hk2, hk3, hk4, hk5⟩ := ih (q + 1) res2 reqs2 hbelow hrec
              refine ⟨k, by omega, ?_, ?_, hk4, by rw [← h.1, hk5]⟩
              · rw [← h.2, hk2]
                have hkq : k - q = (k - (q + 1)) + 1 := by omega
                rw [hkq, List.range'_succ]
                simp
              · intro j h1 h2
                rcases Nat.eq_or_lt_of_le h1 with heq | hlt
                · rw [← heq]
                  simp [contAfter, rawPage, pageIsList, hnet]
                  omega
                · exact hk3 j (by omega) h2
          · rcases f with _ | f2
            · simp [fetchClosedIssuesLoop] at h
            · rw [fetchClosedIssuesLoop, if_neg hbelow] at h
              simp at h
              refine ⟨q + 1, le_refl _, ?_, ?_, ?_, h.1.symm⟩
              · simp [h.2, Nat.add_sub_cancel_left, List.range']
              · intro j h1 h2; omega
              · simp [contAfter, hbelow]
    all_goals
      rw [hnet] at h
      simp at h
      refine ⟨q + 1, le_refl _, ?_, ?_, ?_, ?_⟩
      · simp [h.2, Nat.add_sub_cancel_left, List.range']
      · intro j h1 h2; omega
      · simp [contAfter, pageIsList, hnet]
      · rw [filteredUpTo_succ]
        simp [rawPage, hnet, h.1]

/-- Characterisation of `fetch_closed_issues`, shared by the page-walk
claims: on termination it has requested consecutive pages `1..k`, page
`k` being the first at which a stop condition held, and returns the
filtered accumulation truncated to 150. -/
theorem fetch_closed_issues_pages (env : FetchEnv) (sl : String) (fuel : Nat)
    (res : List Json) (reqs : List String)
    (h : fetch_closed_issues env sl fuel = some (res, reqs)) :
    ∃ k, 1 ≤ k ∧
      reqs = (List.range' 1 k).map (pageUrl sl) ∧
      (∀ j, 1 ≤ j → j < k → contAfter env sl j = true) ∧
      contAfter env sl k = false ∧
      res = (filteredUpTo env sl k).take 150 ∧
      res.length ≤ 150 := by
  unfold fetch_closed_issues at h
  rcases hloop : fetchClosedIssuesLoop env sl fuel 1 [] with _ | ⟨res0, reqs0⟩
  · rw [hloop] at h; simp at h
  · rw [hloop] at h
    simp at h
    obtain ⟨k, hk1, hk2, hk3, hk4, hk5⟩ :=
      fetchClosedIssuesLoop_spec env sl fuel 0 res0 reqs0 (by simp [filteredUpTo]) hloop
    refine ⟨k, hk1, ?_, hk3, hk4, ?_, ?_⟩
    · rw [← h.2, hk2]
      simp
    · rw [← h.1, hk5]
    · rw [← h.1]
      simp [List.length_take]

/-- Claim C1: whenever `fetch_closed_issues` terminates it has requested
consecutive pages `1..k` (each with `?state=closed&per_page=100` in the
URL), page `k` being exactly the first page at which a stop condition
held — accumulated filtered count ≥ 150, a non-list or empty page, or a
page of fewer than 100 raw (pre-filter) entries — and it returns the
accumulated entries that carry no `pull_request` key, truncated to 150,
hence always at most 150 issues, the excess dropped from the final page. -/
theorem fetch_closed_issues_stops_and_truncates (env : FetchEnv) (sl : String)
    (fuel : Nat) (res : List Json) (reqs : List String)
    (h : fetch_closed_issues env sl fuel = some (res, reqs)) :
    ∃ k, 1 ≤ k ∧
      reqs = (List.range' 1 k).map (pageUrl sl) ∧
      (∀ j, 1 ≤ j → j < k → contAfter env sl j = true) ∧
      contAfter env sl k = false ∧
      res = (filteredUpTo env sl k).take 150 ∧
      res.length ≤ 150 :=
  fetch_closed_issues_pages env sl fuel res reqs h

/-- A fixed issues endpoint used for the concrete scenarios. -/
def slEx : String := "https://api.github.com/repos/o/r/issues"

/-- An endpoint that serves an empty first page. -/
def envEmpty : FetchEnv := ⟨fun _ => Json.arr []⟩

/-- Concrete instance of `fetch_closed_issues_stops_and_truncates`: an
endpoint whose first page is empty stops after one request with no
issues. -/
theorem fetch_closed_issues_stops_and_truncates_witness :
    ∃ k, 1 ≤ k ∧
      [pageUrl slEx 1] = (List.range' 1 k).map (pageUrl slEx) ∧
      (∀ j, 1 ≤ j → j < k → contAfter envEmpty slEx j = true) ∧
      contAfter envEmpty slEx k = false ∧
      ([] : List Json) = (filteredUpTo envEmpty slEx k).take 150 ∧
      ([] : List Json).length ≤ 150 :=
  fetch_closed_issues_stops_and_truncates envEmpty slEx 1 [] [pageUrl slEx 1] rfl

/-- 100 distinct non-pull-request issue objects forming page `p` of the
scenario-B endpoint. -/
def pageEntries (p : Nat) : List Json :=
  (List.range 100).map (fun i => Json.obj [("number", Json.num (100 * p + i))])

/-- Scenario B of the spec: the endpoint serves three full pages of 100
non-pull-request entries (and empty pages beyond). -/
def envScenarioB : FetchEnv :=
  ⟨fun url =>
    if url = pageUrl slEx 1 then Json.arr (pageEntries 1)
    else if url = pageUrl slEx 2 then Json.arr (pageEntries 2)
    else if url = pageUrl slEx 3 then Json.arr (pageEntries 3)
    else Json.arr []⟩

set_option maxRecDepth 100000 in
/-- Counterexample to claim C2: on the scenario-B endpoint the walker
issues exactly TWO page requests, not three — after page 2 the
accumulated count is 200 ≥ 150 and the `while` condition exits before
page 3 is ever requested — while still returning exactly 150 issues. -/
theorem scenarioB_counterexample :
    (fetch_closed_issues envScenarioB slEx 4).map (fun pr => (pr.1.length, pr.2)) =
      some (150, [pageUrl slEx 1, pageUrl slEx 2])
    ∧ (fetch_closed_issues envScenarioB slEx 4).map (fun pr => pr.2.length) ≠ some 3 := by
  constructor
  · rfl
  · decide

set_option maxRecDepth 100000 in
/-- Claim C2 (amended): on the scenario-B endpoint — target 150, full
pages of 100 non-pull-request entries — every terminating run of
`fetch_closed_issues` issues exactly two page requests (pages 1 and 2;
page 3 is never requested) and returns exactly 150 issues: all of page 1
and the first 50 entries of page 2, the excess 50 being truncated from
page 2. -/
theorem scenarioB_two_pages (fuel : Nat) (res : List Json) (reqs : List String)
    (h : fetch_closed_issues envScenarioB slEx fuel = some (res, reqs)) :
    reqs = [pageUrl slEx 1, pageUrl slEx 2] ∧
    res = pageEntries 1 ++ (pageEntries 2).take 50 ∧
    res.length = 150 := by
  obtain ⟨k, hk1, hk2, hk3, hk4, hk5, hk6⟩ :=
    fetch_closed_issues_pages envScenarioB slEx fuel res reqs h
  have hc1 : contAfter envScenarioB slEx 1 = true := by decide
  have hc2 : contAfter envScenarioB slEx 2 = false := by decide
  have hk : k = 2 := by
    by_contra hne
    rcases Nat.lt_or_ge k 2 with hlt | hge
    · have h1 : k = 1 := by omega
      rw [h1, hc1] at hk4
      simp at hk4
    · have h3 : 2 < k := by omega
      have h2 := hk3 2 (by omega) h3
      rw [hc2] at h2
      simp at h2
  subst hk
  refine ⟨?_, ?_, ?_⟩
  · rw [hk2]; rfl
  · rw [hk5]; rfl
  · rw [hk5]; rfl

set_option maxRecDepth 100000 in
/-- Concrete instance of `scenarioB_two_pages` at fuel 4. -/
theorem scenarioB_two_pages_witness :
    [pageUrl slEx 1, pageUrl slEx 2] = [pageUrl slEx 1, pageUrl slEx 2] ∧
    pageEntries 1 ++ (pageEntries 2).take 50 = pageEntries 1 ++ (pageEntries 2).take 50 ∧
    (pageEntries 1 ++ (pageEntries 2).take 50).length = 150 :=
  scenarioB_two_pages 4 (pageEntries 1 ++ (pageEntries 2).take 50)
    [pageUrl slEx 1, pageUrl slEx 2] rfl

/-! ## The issue enricher -/

/-- The guard of the scan in `fetch_closing_sha`:
`e.get("event") == "closed" and e.get("commit_id")` (the comparison is
true only for the string `"closed"`; the commit id must be truthy). -/
def isClosingEvent (e : Json) : Bool :=
  (match e.getD "event" Json.null with
   | .str s => decide (s = "closed")
   | _ => false)
  && (e.getD "commit_id" Json.null).truthy

/-- The `for e in events` scan of `fetch_closing_sha`: return the
`commit_id` of the first matching event, `None` when none matches. -/
def findClosingSha : List Json → Option Json
  | [] => none
  | e :: rest =>
    if isClosingEvent e then some (e.getD "commit_id" Json.null)
    else findClosingSha rest

/-- `fetch_closing_sha(session, events_url)`: fetch the events feed,
return `None` when it is not a list, otherwise scan it in feed order;
also reports the one URL requested. -/
def fetch_closing_sha (env : FetchEnv) (events_url : String) :
    Option Json × List String :=
  (match env.net events_url with
   | .arr events => findClosingSha events
   | _ => none,
   [events_url])

/-- `{GITHUB}/repos/{repo}/commits/{sha}`. -/
def commitUrl (repo : String) (sha : Json) : String :=
  GITHUB ++ "/repos/" ++ repo ++ "/commits/" ++ sha.fstr

/-- `data.get("files", [])` as iterated by `fetch_commit_diff`: the
`files` list of a commit response, empty when missing (in particular for
the `{}` of a failed fetch) or not a list. -/
def commitFilesOf (data : Json) : List Json :=
  match data.getD "files" (Json.arr []) with
  | .arr fs => fs
  | _ => []

/-- One diff record: `{"path": f.get("filename"), "diff": f.get("patch", "")}`. -/
def diffEntry (f : Json) : Json :=
  Json.obj [("path", f.getD "filename" Json.null),
            ("diff", f.getD "patch" (Json.str ""))]

/-- `fetch_commit_diff(session, repo, sha)`: when `sha` is falsy, `[]`
without issuing any request; otherwise fetch the commit and build one
diff record per file. -/
def fetch_commit_diff (env : FetchEnv) (repo : String) (sha : Option Json) :
    List Json × List String :=
  if !(pyTruthyOpt sha) then ([], [])
  else
    let url := commitUrl repo (sha.getD Json.null)
    ((commitFilesOf (env.net url)).map diffEntry, [url])

/-- `fetch_comments(session, url)`: the response when it is a list, `[]`
otherwise. -/
def fetch_comments (env : FetchEnv) (url : String) : List Json × List String :=
  (match env.net url with
   | .arr l => l
   | _ => [],
   [url])

/-- Python exceptions, collapsed to a single error value. -/
abbrev Py (α : Type) := Except Unit α

/-- Scan step of Python `s.split(sep)` for a non-empty separator: split at
each leftmost non-overlapping occurrence of `sep`; the fuel is
instantiated with the string length, which bounds the scan. -/
def pySplitAux (sep : List Char) : Nat → List Char → List Char → List (List Char)
  | 0, cs, acc => [acc.reverse ++ cs]
  | _ + 1, [], acc => [acc.reverse]
  | fuel + 1, c :: rest, acc =>
    if sep.isPrefixOf (c :: rest) then
      acc.reverse :: pySplitAux sep fuel ((c :: rest).drop sep.length) []
    else
      pySplitAux sep fuel rest (c :: acc)

/-- Python `s.split(sep)`. -/
def pySplit (s sep : String) : List String :=
  if sep.data.isEmpty then [s]
  else (pySplitAux sep.data s.data.length s.data []).map (fun cs => String.mk cs)

/-- `scrapLink.split("repos/")[1].split("/issues")[0]`: raising (the one
propagating failure of the module) when `"repos/"` does not occur in the
link, since the `[1]` subscription then hits a one-element list. -/
def parseRepo (scrapLink : String) : Py String :=
  match (pySplit scrapLink "repos/")[1]? with
  | some s => .ok ((pySplit s "/issues").headD "")
  | none => .error ()

/-- `d[k]`: dict subscription, raising when the key is absent or the
value is not a dict. -/
def Json.getItem (j : Json) (k : String) : Py Json :=
  match j.getKey? k with
  | some v => .ok v
  | none => .error ()

/-- `[l.get("name") for l in issue.get("labels", [])]` (one entry per
label, `None` standing in for a missing name; a non-list `labels` value
contributes nothing). -/
def labelNames (issue : Json) : List Json :=
  (match issue.getD "labels" (Json.arr []) with
   | .arr ls => ls
   | _ => []).map (fun l => Json.getD l "name" Json.null)

/-- `issue.get("user", {}).get("login")`. -/
def authorOf (issue : Json) : Json :=
  (issue.getD "user" (Json.obj [])).getD "login" Json.null

/-- `issue.get("assignee", {}).get("login") if issue.get("assignee") else None`. -/
def assigneeOf (issue : Json) : Json :=
  if (issue.getD "assignee" Json.null).truthy then
    (issue.getD "assignee" (Json.obj [])).getD "login" Json.null
  else Json.null

/-- `process_issue(session, issue, scrapLink)`: subscribe the required
fields (`issue["number"]`, the repo parse, `issue["events_url"]`,
`issue["comments_url"]` — each raising when unavailable, as in the
source), resolve the closing SHA from the events feed, fetch the
comments, fetch the commit diff for the SHA, and compose the enriched
record with its fields in source order.  The SHA/diff and comments
branches run concurrently in the source; their results, and hence the
record, are the same as in this sequential composition, and the request
list concatenates the per-branch requests. -/
def process_issue (env : FetchEnv) (issue : Json) (scrapLink : String) :
    Py (Json × List String) := do
  let _issue_id ← issue.getItem "number"
  let repo ← parseRepo scrapLink
  let events_url ← issue.getItem "events_url"
  let comments_url ← issue.getItem "comments_url"
  let sha_reqs := fetch_closing_sha env events_url.fstr
  let comments_reqs := fetch_comments env comments_url.fstr
  let diff_reqs := fetch_commit_diff env repo sha_reqs.1
  pure (Json.obj [
    ("issue_id", issue.getD "number" Json.null),
    ("title", issue.getD "title" (Json.str "")),
    ("body", issue.getD "body" (Json.str "")),
    ("state", issue.getD "state" Json.null),
    ("created_at", issue.getD "created_at" Json.null),
    ("updated_at", issue.getD "updated_at" Json.null),
    ("closed_at", issue.getD "closed_at" Json.null),
    ("labels", Json.arr (labelNames issue)),
    ("author", authorOf issue),
    ("assignee", assigneeOf issue),
    ("comments_count", issue.getD "comments" (Json.num 0)),
    ("comments", Json.arr comments_reqs.1),
    ("code_diff", Json.arr diff_reqs.1),
    ("events_url", issue.getD "events_url" Json.null),
    ("comments_url", issue.getD "comments_url" Json.null),
    ("html_url", issue.getD "html_url" Json.null),
    ("repo", Json.str repo)],
    sha_reqs.2 ++ comments_reqs.2 ++ diff_reqs.2)

theorem findClosingSha_eq_find? (events : List Json) :
    findClosingSha events =
      (events.find? isClosingEvent).map (fun e => Json.getD e "commit_id" Json.null) := by
  induction events with
  | nil => rfl
  | cons e rest ih =>
    by_cases hc : isClosingEvent e
    · simp [findClosingSha, hc, List.find?_cons_of_pos _ hc]
    · simp [findClosingSha, hc, List.find?_cons_of_neg _ hc, ih]

/-- The scenario-C events feed:
`[{event:"labeled"}, {event:"closed", commit_id:"abc"}, {event:"reopened"},
{event:"closed", commit_id:"def"}]`. -/
def scenarioCFeed : List Json :=
  [Json.obj [("event", Json.str "labeled")],
   Json.obj [("event", Json.str "closed"), ("commit_id", Json.str "abc")],
   Json.obj [("event", Json.str "reopened")],
   Json.obj [("event", Json.str "closed"), ("commit_id", Json.str "def")]]

/-- An endpoint serving the scenario-C feed. -/
def envScenarioC : FetchEnv := ⟨fun _ => Json.arr scenarioCFeed⟩

/-- Claim C5: for every events feed, `fetch_closing_sha` returns the
commit id of the first event in feed order whose kind is `"closed"` and
which carries a (truthy) commit id, and `None` when no such event exists
(the `find?` on the right is exactly that first match); in particular on
the scenario-C feed — labeled, closed(`"abc"`), reopened, closed(`"def"`)
— it returns `"abc"`, the later closed event being ignored. -/
theorem fetch_closing_sha_first_match (env : FetchEnv) (events_url : String)
    (events : List Json) (h : env.net events_url = Json.arr events) :
    (fetch_closing_sha env events_url).1 =
      (events.find? isClosingEvent).map (fun e => Json.getD e "commit_id" Json.null)
    ∧ (fetch_closing_sha envScenarioC "https://e").1 = some (Json.str "abc") := by
  constructor
  · rw [fetch_closing_sha]
    simp only [h]
    exact findClosingSha_eq_find? events
  · rfl

/-- Concrete instance of `fetch_closing_sha_first_match` on the
scenario-C feed itself. -/
theorem fetch_closing_sha_first_match_witness :
    (fetch_closing_sha envScenarioC "https://e").1 =
      (scenarioCFeed.find? isClosingEvent).map (fun e => Json.getD e "commit_id" Json.null)
    ∧ (fetch_closing_sha envScenarioC "https://e").1 = some (Json.str "abc") :=
  fetch_closing_sha_first_match envScenarioC "https://e" scenarioCFeed rfl

/-- Explicit form of a successful `process_issue` run, given the required
fields and a parsable link; shared by the enrichment claims. -/
theorem process_issue_ok (env : FetchEnv) (issue : Json) (scrapLink : String)
    (n eu cu : Json) (repo : String)
    (hn : issue.getKey? "number" = some n)
    (heu : issue.getKey? "events_url" = some eu)
    (hcu : issue.getKey? "comments_url" = some cu)
    (hrepo : parseRepo scrapLink = .ok repo) :
    process_issue env issue scrapLink = .ok (Json.obj [
      ("issue_id", issue.getD "number" Json.null),
      ("title", issue.getD "title" (Json.str "")),
      ("body", issue.getD "body" (Json.str "")),
      ("state", issue.getD "state" Json.null),
      ("created_at", issue.getD "created_at" Json.null),
      ("updated_at", issue.getD "updated_at" Json.null),
      ("closed_at", issue.getD "closed_at" Json.null),
      ("labels", Json.arr (labelNames issue)),
      ("author", authorOf issue),
      ("assignee", assigneeOf issue),
      ("comments_count", issue.getD "comments" (Json.num 0)),
      ("comments", Json.arr (fetch_comments env cu.fstr).1),
      ("code_diff", Json.arr (fetch_commit_diff env repo (fetch_closing_sha env eu.fstr).1).1),
      ("events_url", issue.getD "events_url" Json.null),
      ("comments_url", issue.getD "comments_url" Json.null),
      ("html_url", issue.getD "html_url" Json.null),
      ("repo", Json.str repo)],
      (fetch_closing_sha env eu.fstr).2 ++ (fetch_comments env cu.fstr).2
        ++ (fetch_commit_diff env repo (fetch_closing_sha env eu.fstr).1).2) := by
  unfold process_issue
  rw [show issue.getItem "number" = Except.ok n by simp [Json.getItem, hn],
      hrepo,
      show issue.getItem "events_url" = Except.ok eu by simp [Json.getItem, heu],
      show issue.getItem "comments_url" = Except.ok cu by simp [Json.getItem, hcu]]
  rfl

theorem fetch_commit_diff_falsy (env : FetchEnv) (repo : String)
    (sha : Option Json) (h : pyTruthyOpt sha = false) :
    fetch_commit_diff env repo sha = ([], []) := by
  simp [fetch_commit_diff, h]

theorem fetch_commit_diff_truthy (env : FetchEnv) (repo : String)
    (sha : Option Json) (h : pyTruthyOpt sha = true) :
    fetch_commit_diff env repo sha =
      ((commitFilesOf (env.net (commitUrl repo (sha.getD Json.null)))).map diffEntry,
       [commitUrl repo (sha.getD Json.null)]) := by
  simp [fetch_commit_diff, h]

/-- An issue whose events feed does contain a "closed" event carrying
commit id `"abc"`, but whose commit endpoint fails, so the commit data
is the `{}` of a failed fetch. -/
def issueLostCommit : Json :=
  Json.obj [("number", Json.num 1),
            ("events_url", Json.str "https://e1"),
            ("comments_url", Json.str "https://c1")]

def envLostCommit : FetchEnv :=
  ⟨fun url =>
    if url = "https://e1" then
      Json.arr [Json.obj [("event", Json.str "closed"), ("commit_id", Json.str "abc")]]
    else if url = "https://c1" then Json.arr []
    else Json.obj []⟩

/-- Counterexample to claim C4: for `issueLostCommit` the events feed DOES
contain a "closed" event carrying a commit id (the scan resolves `"abc"`),
yet the enriched record has `code_diff == []`, because the commit fetch
failed and yielded `{}` with no `files`; so `code_diff == []` does not
imply the absence of such an event. -/
theorem code_diff_iff_counterexample :
    (process_issue envLostCommit issueLostCommit slEx).map
        (fun pr => Json.getKey? pr.1 "code_diff") = .ok (some (Json.arr []))
    ∧ findClosingSha
        [Json.obj [("event", Json.str "closed"), ("commit_id", Json.str "abc")]] =
        some (Json.str "abc") := by
  constructor
  · rfl
  · rfl

/-- Claim C4 (amended): for every successfully processed issue,
`code_diff == []` holds iff either the events feed yields no "closed"
event carrying a commit id (the resolved SHA is falsy), or the commit
fetch for the resolved SHA yields no `files` entries (as with a failed
fetch or an empty file list); and when no such event exists, the only
requests issued are the events-feed and comments requests — no
commit-fetch request at all. -/
theorem code_diff_empty_iff (env : FetchEnv) (issue : Json) (scrapLink : String)
    (res : Json) (reqs : List String) (n eu cu : Json) (repo : String)
    (hn : issue.getKey? "number" = some n)
    (heu : issue.getKey? "events_url" = some eu)
    (hcu : issue.getKey? "comments_url" = some cu)
    (hrepo : parseRepo scrapLink = .ok repo)
    (h : process_issue env issue scrapLink = .ok (res, reqs)) :
    (res.getKey? "code_diff" = some (Json.arr []) ↔
      pyTruthyOpt (fetch_closing_sha env eu.fstr).1 = false ∨
      commitFilesOf (env.net (commitUrl repo
        ((fetch_closing_sha env eu.fstr).1.getD Json.null))) = [])
    ∧ (pyTruthyOpt (fetch_closing_sha env eu.fstr).1 = false →
        reqs = [eu.fstr, cu.fstr]) := by
  rw [process_issue_ok env issue scrapLink n eu cu repo hn heu hcu hrepo] at h
  simp only [Except.ok.injEq, Prod.mk.injEq] at h
  obtain ⟨hres, hreqs⟩ := h
  have hkey : ∀ diffs : List Json, res = Json.obj [
      ("issue_id", issue.getD "number" Json.null),
      ("title", issue.getD "title" (Json.str "")),
      ("body", issue.getD "body" (Json.str "")),
      ("state", issue.getD "state" Json.null),
      ("created_at", issue.getD "created_at" Json.null),
      ("updated_at", issue.getD "updated_at" Json.null),
      ("closed_at", issue.getD "closed_at" Json.null),
      ("labels", Json.arr (labelNames issue)),
      ("author", authorOf issue),
      ("assignee", assigneeOf issue),
      ("comments_count", issue.getD "comments" (Json.num 0)),
      ("comments", Json.arr (fetch_comments env cu.fstr).1),
      ("code_diff", Json.arr diffs),
      ("events_url", issue.getD "events_url" Json.null),
      ("comments_url", issue.getD "comments_url" Json.null),
      ("html_url", issue.getD "html_url" Json.null),
      ("repo", Json.str repo)] →
      res.getKey? "code_diff" = some (Json.arr diffs) := by
    intro diffs hr
    rw [hr]
    rfl
  rcases hsha : pyTruthyOpt (fetch_closing_sha env eu.fstr).1 with _ | _
  · rw [fetch_commit_diff_falsy env repo _ hsha] at hres hreqs
    constructor
    · rw [hkey [] (by rw [← hres])]
      simp [hsha]
    · intro _
      rw [← hreqs]
      rfl
  · rw [fetch_commit_diff_truthy env repo _ hsha] at hres hreqs
    constructor
    · rw [hkey _ (by rw [← hres])]
      simp only [Option.some.injEq, Json.arr.injEq, hsha]
      simp [List.map_eq_nil_iff]
    · intro hcontra
      simp at hcontra

/-- An issue whose events feed holds no "closed" event at all. -/
def issueNoClose : Json :=
  Json.obj [("number", Json.num 3),
            ("events_url", Json.str "https://e3"),
            ("comments_url", Json.str "https://c3")]

def envNoClose : FetchEnv :=
  ⟨fun url =>
    if url = "https://e3" then Json.arr [Json.obj [("event", Json.str "labeled")]]
    else Json.obj []⟩

/-- The enriched record `process_issue` builds for `issueNoClose`. -/
def resNoClose : Json :=
  Json.obj [
    ("issue_id", Json.num 3),
    ("title", Json.str ""),
    ("body", Json.str ""),
    ("state", Json.null),
    ("created_at", Json.null),
    ("updated_at", Json.null),
    ("closed_at", Json.null),
    ("labels", Json.arr []),
    ("author", Json.null),
    ("assignee", Json.null),
    ("comments_count", Json.num 0),
    ("comments", Json.arr []),
    ("code_diff", Json.arr []),
    ("events_url", Json.str "https://e3"),
    ("comments_url", Json.str "https://c3"),
    ("html_url", Json.null),
    ("repo", Json.str "o/r")]

/-- Concrete instance of `code_diff_empty_iff`: an issue with no closing
event gets `code_diff == []` and only the events and comments requests. -/
theorem code_diff_empty_iff_witness :
    (resNoClose.getKey? "code_diff" = some (Json.arr []) ↔
      pyTruthyOpt (fetch_closing_sha envNoClose (Json.str "https://e3").fstr).1 = false ∨
      commitFilesOf (envNoClose.net (commitUrl "o/r"
        ((fetch_closing_sha envNoClose (Json.str "https://e3").fstr).1.getD Json.null))) = [])
    ∧ (pyTruthyOpt (fetch_closing_sha envNoClose (Json.str "https://e3").fstr).1 = false →
        ["https://e3", "https://c3"] =
          [(Json.str "https://e3").fstr, (Json.str "https://c3").fstr]) :=
  code_diff_empty_iff envNoClose issueNoClose slEx resNoClose
    ["https://e3", "https://c3"] (Json.num 3) (Json.str "https://e3")
    (Json.str "https://c3") "o/r" rfl rfl rfl rfl rfl

/-- A remote on which every fetch fails (`fetch_json` yields `{}`
everywhere). -/
def envAllFail : FetchEnv := ⟨fun _ => Json.obj []⟩

/-- An issue carrying one label object with no `name` field and no
assignee. -/
def issueNamelessLabel : Json :=
  Json.obj [("number", Json.num 2),
            ("labels", Json.arr [Json.obj []]),
            ("events_url", Json.str "https://e2"),
            ("comments_url", Json.str "https://c2")]

/-- Counterexample to claim C9: a label entry with a missing name is NOT
skipped — `[l.get("name") for l in labels]` keeps it as a `None` entry,
so the enriched `labels` list is `[None]`, not `[]`. -/
theorem missing_label_name_not_skipped :
    (process_issue envAllFail issueNamelessLabel slEx).map
        (fun pr => Json.getKey? pr.1 "labels") = .ok (some (Json.arr [Json.null]))
    ∧ Json.arr [Json.null] ≠ Json.arr [] := by
  constructor
  · rfl
  · simp

/-- Claim C9 (amended): for a raw issue record carrying the required
`number`, `events_url` and `comments_url` fields (their direct dict
subscriptions being the raising accesses of `process_issue`), enrichment
defensively defaults missing optional fields instead of raising: the
record is produced, a missing assignee yields `None`, and a label entry
with a missing name contributes `None` to the labels list rather than
being skipped — the list keeps exactly one entry per label. -/
theorem enrichment_defaults (env : FetchEnv) (issue : Json) (scrapLink : String)
    (n eu cu : Json) (repo : String) (ls : List Json)
    (hn : issue.getKey? "number" = some n)
    (heu : issue.getKey? "events_url" = some eu)
    (hcu : issue.getKey? "comments_url" = some cu)
    (hrepo : parseRepo scrapLink = .ok repo)
    (hls : issue.getD "labels" (Json.arr []) = Json.arr ls) :
    ∃ res reqs, process_issue env issue scrapLink = .ok (res, reqs)
      ∧ (issue.getKey? "assignee" = none → res.getKey? "assignee" = some Json.null)
      ∧ res.getKey? "labels" =
          some (Json.arr (ls.map (fun l => Json.getD l "name" Json.null)))
      ∧ (ls.map (fun l => Json.getD l "name" Json.null)).length = ls.length := by
  refine ⟨_, _, process_issue_ok env issue scrapLink n eu cu repo hn heu hcu hrepo,
    ?_, ?_, ?_⟩
  · intro hassign
    have step : assigneeOf issue = Json.null := by
      simp [assigneeOf, Json.getD, hassign, Json.truthy]
    conv_rhs => rw [← step]
    rfl
  · have step : labelNames issue = ls.map (fun l => Json.getD l "name" Json.null) := by
      simp [labelNames, hls]
    conv_rhs => rw [← step]
    rfl
  · simp

/-- Concrete instance of `enrichment_defaults` on `issueNamelessLabel`
(no assignee, one nameless label). -/
theorem enrichment_defaults_witness :
    ∃ res reqs, process_issue envAllFail issueNamelessLabel slEx = .ok (res, reqs)
      ∧ (issueNamelessLabel.getKey? "assignee" = none →
          res.getKey? "assignee" = some Json.null)
      ∧ res.getKey? "labels" =
          some (Json.arr ([Json.obj []].map (fun l => Json.getD l "name" Json.null)))
      ∧ ([Json.obj []].map (fun l => Json.getD l "name" Json.null)).length =
          [Json.obj []].length :=
  enrichment_defaults envAllFail issueNamelessLabel slEx (Json.num 2)
    (Json.str "https://e2") (Json.str "https://c2") "o/r" [Json.obj []]
    rfl rfl rfl rfl rfl

/-! ## The harvest orchestrator: `scrapIssues` -/

/-- `asyncio.gather(*tasks)`: the task results in task order; a raised
exception propagates instead of a result list. -/
def gatherPy : List (Py Json) → Py (List Json)
  | [] => .ok []
  | t :: ts =>
    match t with
    | .error e => .error e
    | .ok v =>
      match gatherPy ts with
      | .error e => .error e
      | .ok vs => .ok (v :: vs)

/-- The synthetic "no data" record built by `scrapIssues` when the issue
list is empty, with its keys in source order. -/
def placeholderRecord (repo : String) : Json :=
  Json.obj [
    ("issue_id", Json.str "no-data"),
    ("title", Json.str "No issues fetched"),
    ("body", Json.str "GitHub API returned zero issues."),
    ("comments", Json.arr []),
    ("code_diff", Json.arr []),
    ("repo", Json.str repo)]

/-- `scrapIssues(scrapLink)`: discover up to 150 closed issues, enrich
every one (`asyncio.gather` over `process_issue` tasks), and return the
enriched records in discovery order; when nothing was discovered, return
the single placeholder record instead (that branch re-parses the repo
from the link, raising on a malformed link).  The outer `none`
propagates pagination fuel exhaustion. -/
def scrapIssues (env : FetchEnv) (scrapLink : String) (fuel : Nat) :
    Option (Py (List Json)) :=
  (fetch_closed_issues env scrapLink fuel).map (fun pr =>
    match gatherPy (pr.1.map (fun issue =>
        Except.map Prod.fst (process_issue env issue scrapLink))) with
    | .error e => .error e
    | .ok results =>
      if results.length = 0 then
        match parseRepo scrapLink with
        | .error e => .error e
        | .ok repo => .ok [placeholderRecord repo]
      else .ok results)

theorem gatherPy_ok_spec : ∀ (ts : List (Py Json)) (vs : List Json),
    gatherPy ts = .ok vs →
    vs.length = ts.length ∧
    ∀ i, i < ts.length → ts.getD i (.ok Json.null) = .ok (vs.getD i Json.null) := by
  intro ts
  induction ts with
  | nil =>
    intro vs h
    simp [gatherPy] at h
    simp [← h]
  | cons t ts ih =>
    intro vs h
    rcases t with e | v
    · simp [gatherPy] at h
    · rcases hg : gatherPy ts with e2 | vs2
      · rw [gatherPy, hg] at h
        simp at h
      · rw [gatherPy, hg] at h
        simp at h
        obtain ⟨hlen, hget⟩ := ih vs2 hg
        constructor
        · simp [← h, hlen]
        · intro i hi
          rcases i with _ | i2
          · simp [← h]
          · simp only [← h]
            simpa using hget i2 (by simpa using hi)

/-- Claim C7: for every non-empty discovered issue list, a successful
harvest returns exactly one enriched record per discovered issue, and
the i-th returned record is the enrichment (`process_issue`) of the i-th
discovered issue — output order equals discovery order. -/
theorem scrapIssues_order (env : FetchEnv) (scrapLink : String) (fuel : Nat)
    (issues : List Json) (reqs : List String) (out : List Json)
    (hfetch : fetch_closed_issues env scrapLink fuel = some (issues, reqs))
    (hne : issues ≠ [])
    (hout : scrapIssues env scrapLink fuel = some (.ok out)) :
    out.length = issues.length ∧
    ∀ i, i < issues.length →
      Except.map Prod.fst (process_issue env (issues.getD i Json.null) scrapLink) =
        .ok (out.getD i Json.null) := by
  rw [scrapIssues, hfetch] at hout
  simp only [Option.map_some', Option.some.injEq] at hout
  rcases hg : gatherPy (issues.map (fun issue =>
      Except.map Prod.fst (process_issue env issue scrapLink))) with e | results
  · rw [hg] at hout
    simp at hout
  · rw [hg] at hout
    dsimp only at hout
    obtain ⟨hlen, hget⟩ := gatherPy_ok_spec _ results hg
    rw [List.length_map] at hlen
    have hrne : ¬ results.length = 0 := by
      rw [hlen]
      simpa using fun h => hne (List.length_eq_zero.mp h)
    rw [if_neg hrne] at hout
    simp only [Except.ok.injEq] at hout
    subst hout
    refine ⟨hlen, ?_⟩
    intro i hi
    have hx := hget i (by simpa using hi)
    have hgot : issues[i]? = some issues[i] := List.getElem?_eq_getElem hi
    rw [List.getD_eq_getElem?_getD, List.getElem?_map, hgot] at hx
    rw [List.getD_eq_getElem?_getD, hgot]
    simpa using hx

/-- A remote serving a single closed issue (page 1 holds one entry) and
`{}` everywhere else. -/
def envOneIssue : FetchEnv :=
  ⟨fun url => if url = pageUrl slEx 1 then Json.arr [issueLostCommit] else Json.obj []⟩

/-- The enriched record of `issueLostCommit` under `envOneIssue` (its
events and comments fetches both fail, so everything defaults). -/
def resOneIssue : Json :=
  Json.obj [
    ("issue_id", Json.num 1),
    ("title", Json.str ""),
    ("body", Json.str ""),
    ("state", Json.null),
    ("created_at", Json.null),
    ("updated_at", Json.null),
    ("closed_at", Json.null),
    ("labels", Json.arr []),
    ("author", Json.null),
    ("assignee", Json.null),
    ("comments_count", Json.num 0),
    ("comments", Json.arr []),
    ("code_diff", Json.arr []),
    ("events_url", Json.str "https://e1"),
    ("comments_url", Json.str "https://c1"),
    ("html_url", Json.null),
    ("repo", Json.str "o/r")]

/-- Concrete instance of `scrapIssues_order`: a one-issue harvest. -/
theorem scrapIssues_order_witness :
    ([resOneIssue] : List Json).length = ([issueLostCommit] : List Json).length ∧
    ∀ i, i < ([issueLostCommit] : List Json).length →
      Except.map Prod.fst
          (process_issue envOneIssue (([issueLostCommit] : List Json).getD i Json.null) slEx) =
        .ok (([resOneIssue] : List Json).getD i Json.null) :=
  scrapIssues_order envOneIssue slEx 1 [issueLostCommit] [pageUrl slEx 1] [resOneIssue]
    rfl (by simp) rfl

/-- Claim C8: when zero closed issues are discovered, the harvest returns
the one-element placeholder list flagging "no data" for the repository
parsed from the link; and, in general, no successful harvest ever
returns an empty list. -/
theorem scrapIssues_empty_placeholder (env : FetchEnv) (scrapLink : String)
    (fuel : Nat) (reqs : List String) (repo : String)
    (hfetch : fetch_closed_issues env scrapLink fuel = some ([], reqs))
    (hrepo : parseRepo scrapLink = .ok repo) :
    scrapIssues env scrapLink fuel = some (.ok [placeholderRecord repo])
    ∧ ∀ (env2 : FetchEnv) (sl2 : String) (fuel2 : Nat) (out : List Json),
        scrapIssues env2 sl2 fuel2 = some (.ok out) → out ≠ [] := by
  constructor
  · rw [scrapIssues, hfetch]
    simp [gatherPy, hrepo]
  · intro env2 sl2 fuel2 out hout
    rw [scrapIssues] at hout
    rcases hfetch2 : fetch_closed_issues env2 sl2 fuel2 with _ | ⟨issues2, reqs2⟩
    · rw [hfetch2] at hout
      simp at hout
    · rw [hfetch2] at hout
      simp only [Option.map_some', Option.some.injEq] at hout
      rcases hg : gatherPy (issues2.map (fun issue =>
          Except.map Prod.fst (process_issue env2 issue sl2))) with e | results
      · rw [hg] at hout
        simp at hout
      · rw [hg] at hout
        dsimp only at hout
        by_cases hz : results.length = 0
        · rw [if_pos hz] at hout
          rcases hrepo2 : parseRepo sl2 with e2 | repo2
          · rw [hrepo2] at hout
            simp at hout
          · rw [hrepo2] at hout
            simp only [Except.ok.injEq] at hout
            rw [← hout]
            simp
        · rw [if_neg hz] at hout
          simp only [Except.ok.injEq] at hout
          rw [← hout]
          intro hcontra
          rw [hcontra] at hz
          simp at hz

/-- Concrete instance of `scrapIssues_empty_placeholder`: an endpoint with
an empty first page. -/
theorem scrapIssues_empty_placeholder_witness :
    scrapIssues envEmpty slEx 1 = some (.ok [placeholderRecord "o/r"])
    ∧ ∀ (env2 : FetchEnv) (sl2 : String) (fuel2 : Nat) (out : List Json),
        scrapIssues env2 sl2 fuel2 = some (.ok out) → out ≠ [] :=
  scrapIssues_empty_placeholder envEmpty slEx 1 [pageUrl slEx 1] "o/r" rfl rfl

/-- Claim C10: the placeholder record of a zero-issue harvest has
`issue_id` equal to the STRING `"no-data"` and carries exactly the keys
`issue_id`, `title`, `body`, `comments`, `code_diff`, `repo` in that
order — none of the remaining RawIssue fields (state, the three
timestamps, labels, author, assignee, comment count, events/comments/html
URLs) is present on it. -/
theorem placeholder_shape (env : FetchEnv) (scrapLink : String)
    (fuel : Nat) (reqs : List String) (repo : String)
    (hfetch : fetch_closed_issues env scrapLink fuel = some ([], reqs))
    (hrepo : parseRepo scrapLink = .ok repo) :
    ∃ p, scrapIssues env scrapLink fuel = some (.ok [p])
      ∧ p.getKey? "issue_id" = some (Json.str "no-data")
      ∧ p.keys = ["issue_id", "title", "body", "comments", "code_diff", "repo"]
      ∧ ∀ k, k ∈ ["state", "created_at", "updated_at", "closed_at", "labels",
            "author", "assignee", "comments_count", "events_url",
            "comments_url", "html_url"] → p.hasKey k = false := by
  refine ⟨placeholderRecord repo, ?_, rfl, rfl, ?_⟩
  · rw [scrapIssues, hfetch]
    simp [gatherPy, hrepo]
  · intro k hk
    fin_cases hk <;> rfl

/-- Concrete instance of `placeholder_shape` on the empty endpoint. -/
theorem placeholder_shape_witness :
    ∃ p, scrapIssues envEmpty slEx 1 = some (.ok [p])
      ∧ p.getKey? "issue_id" = some (Json.str "no-data")
      ∧ p.keys = ["issue_id", "title", "body", "comments", "code_diff", "repo"]
      ∧ ∀ k, k ∈ ["state", "created_at", "updated_at", "closed_at", "labels",
            "author", "assignee", "comments_count", "events_url",
            "comments_url", "html_url"] → p.hasKey k = false :=
  placeholder_shape envEmpty slEx 1 [pageUrl slEx 1] "o/r" rfl rfl
